import Mathlib

/-!
Verification of the work-code validation/sanitization and search-filter core
of the OSWFM micro-frontend repository (src/SharedComponets/src/types.ts).

Strings are modelled over `List Char`; JS `String.prototype` operations are
embedded as explicit list transformations so that every definition is
executable and provable.
-/

set_option maxRecDepth 10000

namespace OSWFM

/-- Models the character class `[<>]` of `sanitizeInput`'s `replace(/[<>]/g, '')`. -/
def isAngle (c : Char) : Bool := c == '<' || c == '>'

/-- Models `String.prototype.trim`: removes leading and trailing whitespace
(here: trailing first via the double reverse, then leading, which yields the
same result as trimming both ends at once). -/
def trimChars (l : List Char) : List Char :=
  ((l.reverse.dropWhile Char.isWhitespace).reverse).dropWhile Char.isWhitespace

/-- Character-level body of `SecurityValidator.sanitizeInput`:
`.replace(/[<>]/g, '')` then `.trim()` then `.substring(0, 1000)`. -/
def sanitizeChars (l : List Char) : List Char :=
  (trimChars (l.filter fun c => !(isAngle c))).take 1000

/-- Embeds `SecurityValidator.sanitizeInput`: `if (!input) return ''` (the empty
string is the only falsy string), then remove angle brackets, trim, and
truncate to 1000 characters. -/
def sanitizeInput (input : String) : String :=
  if input = "" then "" else ⟨sanitizeChars input.toList⟩

/-- Models `String.prototype.toLowerCase` (simple per-character mapping). -/
def toLowerStr (s : String) : String := ⟨s.toList.map Char.toLower⟩

/-- Embeds `SecurityValidator.validateWorkCodeInput`: false when
`value.length > maxLength`, otherwise tests `/^[a-zA-Z0-9\s\-_]*$/`
(alphanumeric, whitespace, hyphen, underscore).  The `field` argument is
unused in the source as well. -/
def validateWorkCodeInput (_field : String) (value : String) (maxLength : Nat) : Bool :=
  if value.length > maxLength then false
  else value.toList.all fun c => c.isAlphanum || c.isWhitespace || c == '-' || c == '_'

/-- Embeds `SecurityValidator.validateStatus`:
`Number.isInteger(status) && status >= 0 && status <= 3`.  A JS number is
modelled as a rational; `Number.isInteger` is `Rat.isInt`. -/
def validateStatus (status : ℚ) : Bool :=
  status.isInt && decide (0 ≤ status) && decide (status ≤ 3)

/-- Embeds `WorkCodeService.getStatusLabel`: the `labels` lookup table with
`'Unknown'` for any key outside 0..3. -/
def getStatusLabel (status : Int) : String :=
  if status = 0 then "Inactive"
  else if status = 1 then "Active"
  else if status = 2 then "Pending"
  else if status = 3 then "Archived"
  else "Unknown"

/-- The `WorkCode` record.  Field values are optional so that the
`value === null || value === undefined` check in `filterWorkCodes` is
expressible. -/
structure WorkCode where
  work_code_id : Option Int
  prefix_ : Option String
  suffix : Option String
  short_work_code : Option String
  long_work_code : Option String
  description : Option String
  status : Option Int
deriving DecidableEq

/-- A dynamic field value, as produced by `code[fieldName as keyof WorkCode]`. -/
inductive FieldValue where
  | num (n : Int)
  | str (s : String)
deriving DecidableEq

/-- The `value as number` cast used in the status branch.  The status key
always holds a number; a string key would miss the label table and produce
`'Unknown'` in JS, which `-1` reproduces. -/
def FieldValue.asNumber : FieldValue → Int
  | .num n => n
  | .str _ => -1

/-- Embeds `String(value)`: stringification of a dynamic field value. -/
def FieldValue.display : FieldValue → String
  | .num n => toString n
  | .str s => s

/-- Dynamic field access `code[fieldName as keyof WorkCode]`; an unknown
field name yields `undefined`, i.e. `none`. -/
def getField (code : WorkCode) : String → Option FieldValue
  | "work_code_id" => code.work_code_id.map .num
  | "prefix" => code.prefix_.map .str
  | "suffix" => code.suffix.map .str
  | "short_work_code" => code.short_work_code.map .str
  | "long_work_code" => code.long_work_code.map .str
  | "description" => code.description.map .str
  | "status" => code.status.map .num
  | _ => none

/-- The string a field contributes to the search: the status field goes
through `getStatusLabel`, every other field through `String(value)`;
a null/absent value contributes nothing. -/
def displayValue (code : WorkCode) (fieldName : String) : Option String :=
  match getField code fieldName with
  | none => none
  | some v => if fieldName = "status" then some (getStatusLabel v.asNumber) else some v.display

/-- Embeds `String.prototype.includes`: `sub` occurs contiguously in `s`. -/
def strIncludes (s sub : String) : Bool := decide (sub.toList <:+: s.toList)

/-- Body of the predicate passed to `workCodes.filter` in
`WorkCodeService.filterWorkCodes`, for one field name. -/
def fieldMatches (code : WorkCode) (query : String) (fieldName : String) : Bool :=
  match displayValue code fieldName with
  | none => false
  | some s => strIncludes (toLowerStr s) query

/-- Embeds `WorkCodeService.filterWorkCodes`: identity when the trimmed query is
empty (falsy), otherwise keep the records for which some visible field
matches the sanitized lower-cased query. -/
def filterWorkCodes (workCodes : List WorkCode) (searchQuery : String)
    (visibleFields : List String) : List WorkCode :=
  if trimChars searchQuery.toList = [] then workCodes
  else
    let query := sanitizeInput (toLowerStr searchQuery)
    workCodes.filter fun code => visibleFields.any fun fieldName =>
      fieldMatches code query fieldName

/-- The `FieldConfig` interface. -/
structure FieldConfig where
  enabled : Bool
  readonly : Bool
  visible : Bool
  label : String
  hint : String
  required : Bool
deriving DecidableEq

/-- The editable form data, `Omit<WorkCode, 'work_code_id'>`.  These fields
are always present (the component state initializes all of them), so they
are plain values; `status` is a JS number. -/
structure FormData where
  prefix_ : String
  suffix : String
  short_work_code : String
  long_work_code : String
  description : String
  status : ℚ
deriving DecidableEq

/-- JS falsiness of `formData[field]`: the empty string and the number `0`
are falsy, and an unknown key reads `undefined`, which is falsy. -/
def formFalsy (d : FormData) : String → Bool
  | "prefix" => d.prefix_ == ""
  | "suffix" => d.suffix == ""
  | "short_work_code" => d.short_work_code == ""
  | "long_work_code" => d.long_work_code == ""
  | "description" => d.description == ""
  | "status" => d.status == 0
  | _ => true

/-- Result shape of `WorkCodeService.validateRequiredFields`. -/
structure ValidationResult where
  isValid : Bool
  missingField : Option String
deriving DecidableEq

/-- JS object property access `fieldConfigs[field]` over the entry list. -/
def lookupConfig (field : String) : List (String × FieldConfig) → Option FieldConfig
  | [] => none
  | p :: rest => if field = p.1 then some p.2 else lookupConfig field rest

/-- Embeds `WorkCodeService.validateRequiredFields`: collect the keys of the
required-and-visible field configs (in entry order, the source's local
`requiredFields`, inlined here), and report the first whose form value is
falsy, carrying that config's label. -/
def validateRequiredFields (formData : FormData)
    (fieldConfigs : List (String × FieldConfig)) : ValidationResult :=
  match ((fieldConfigs.filter fun p => p.2.required && p.2.visible).map Prod.fst).find?
      (fun field => formFalsy formData field) with
  | some field => ⟨false, (lookupConfig field fieldConfigs).map FieldConfig.label⟩
  | none => ⟨true, none⟩

/-- Embeds `WorkCodeApiClient.validateWorkCodeData`: throwing `new Error(msg)` is
modelled as `Except.error msg`. -/
def validateWorkCodeData (data : FormData) : Except String Unit :=
  if data.short_work_code = "" || data.long_work_code = "" then
    .error "Required fields are missing"
  else if !(validateWorkCodeInput "prefix" data.prefix_ 10) then
    .error "Invalid prefix format or length"
  else if !(validateWorkCodeInput "suffix" data.suffix 10) then
    .error "Invalid suffix format or length"
  else if !(validateWorkCodeInput "short_work_code" data.short_work_code 10) then
    .error "Invalid short work code format or length"
  else if !(validateWorkCodeInput "long_work_code" data.long_work_code 50) then
    .error "Invalid long work code format or length"
  else if !(validateStatus data.status) then
    .error "Invalid status value"
  else .ok ()

/-- The `fields` part of `ConfigurationManager.getDefaultPageConfig`, in
source entry order. -/
def defaultFieldConfigs : List (String × FieldConfig) :=
  [("prefix", ⟨true, false, true, "Prefix", "Maximum 10 characters", false⟩),
   ("suffix", ⟨true, false, true, "Suffix", "Maximum 10 characters", false⟩),
   ("short_work_code", ⟨true, false, true, "Short Work Code",
     "Required, maximum 10 characters", true⟩),
   ("long_work_code", ⟨true, false, true, "Long Work Code",
     "Required, maximum 50 characters", true⟩),
   ("description", ⟨true, false, true, "Description",
     "Optional detailed description", false⟩),
   ("status", ⟨true, false, true, "Status", "", false⟩)]

/-! Concrete inputs used by the scenario claims and counterexamples. -/

/-- Record 1 of the search scenario: id 1, short code "AB1", status 1 (Active). -/
def c1r1 : WorkCode := ⟨some 1, none, none, some "AB1", none, none, some 1⟩

/-- Record 2 of the search scenario: id 2, short code "XY9", status 0 (Inactive). -/
def c1r2 : WorkCode := ⟨some 2, none, none, some "XY9", none, none, some 0⟩

/-- The record list of the search scenario. -/
def c1records : List WorkCode := [c1r1, c1r2]

/-- The visible fields of the search scenario. -/
def c1fields : List String := ["short_work_code", "status"]

/-- A 1001-character input (999 letters, a space, a letter): trimming leaves it
unchanged, and the 1000-character truncation then cuts after the space. -/
def c5bad : String := ⟨List.replicate 999 'a' ++ [' ', 'b']⟩

/-- The initial form state of the component: all text fields empty, status 1. -/
def emptyForm : FormData := ⟨"", "", "", "", "", 1⟩

/-- Form with a non-empty prefix and an empty description. -/
def c9Form : FormData := ⟨"x", "", "", "", "", 1⟩

/-- Config map whose first entry is required but not visible (and its form
value is empty), and whose second entry is required and visible. -/
def c9Configs : List (String × FieldConfig) :=
  [("description", ⟨true, false, false, "Description", "", true⟩),
   ("prefix", ⟨true, false, true, "Prefix", "", true⟩)]

/-- Character class claimed by the spec for well-formed values: alphanumeric,
hyphen, underscore, or a literal space (used to compare the spec's wording
against the code's whitespace class). -/
def claimAllowedChar (c : Char) : Bool := c.isAlphanum || c == '-' || c == '_' || c == ' '

/-! Helper lemmas about `dropWhile`, `trimChars` and `sanitizeChars`. -/

lemma head?_dropWhile_not (p : Char → Bool) (l : List Char) :
    ∀ c, (l.dropWhile p).head? = some c → p c = false := by
  induction l with
  | nil => intro c h; simp at h
  | cons a t ih =>
    intro c h
    by_cases hpa : p a = true
    · rw [List.dropWhile_cons, if_pos hpa] at h
      exact ih c h
    · rw [List.dropWhile_cons, if_neg hpa] at h
      obtain rfl : a = c := by simpa using h
      simpa using hpa

lemma dropWhile_eq_self_of_head (p : Char → Bool) (l : List Char)
    (h : ∀ c, l.head? = some c → p c = false) : l.dropWhile p = l := by
  cases l with
  | nil => rfl
  | cons a t =>
    rw [List.dropWhile_cons, if_neg]
    simp [h a rfl]

lemma getLast?_dropWhile_of_ne_nil (p : Char → Bool) (l : List Char)
    (h : l.dropWhile p ≠ []) : (l.dropWhile p).getLast? = l.getLast? := by
  induction l with
  | nil => simp at h
  | cons a t ih =>
    by_cases hpa : p a = true
    · rw [List.dropWhile_cons, if_pos hpa] at h ⊢
      have ht : t ≠ [] := by
        intro he
        subst he
        simp at h
      rw [ih h]
      cases t with
      | nil => exact absurd rfl ht
      | cons b u => rw [List.getLast?_cons_cons]
    · rw [List.dropWhile_cons, if_neg hpa]

lemma trimChars_head_not (l : List Char) :
    ∀ c, (trimChars l).head? = some c → c.isWhitespace = false :=
  head?_dropWhile_not Char.isWhitespace _

lemma trimChars_subset (l : List Char) : trimChars l ⊆ l := by
  intro c hc
  unfold trimChars at hc
  have h1 := List.Sublist.subset (List.dropWhile_sublist Char.isWhitespace) hc
  rw [List.mem_reverse] at h1
  have h2 := List.Sublist.subset (List.dropWhile_sublist Char.isWhitespace) h1
  rwa [List.mem_reverse] at h2

lemma trimChars_length_le (l : List Char) : (trimChars l).length ≤ l.length := by
  unfold trimChars
  have h1 := List.Sublist.length_le
    (List.dropWhile_sublist (l := (l.reverse.dropWhile Char.isWhitespace).reverse)
      Char.isWhitespace)
  have h2 := List.Sublist.length_le
    (List.dropWhile_sublist (l := l.reverse) Char.isWhitespace)
  simp only [List.length_reverse] at h1 h2 ⊢
  omega

lemma trimChars_idem (l : List Char) : trimChars (trimChars l) = trimChars l := by
  by_cases hne : trimChars l = []
  · rw [hne]; rfl
  · have hc : (trimChars l).dropWhile Char.isWhitespace = trimChars l :=
      dropWhile_eq_self_of_head _ _ (trimChars_head_not l)
    have hrev : ((trimChars l).reverse).dropWhile Char.isWhitespace = (trimChars l).reverse := by
      apply dropWhile_eq_self_of_head
      intro c hcc
      rw [List.head?_reverse] at hcc
      have e1 : (trimChars l).getLast? =
          ((l.reverse.dropWhile Char.isWhitespace).reverse).getLast? :=
        getLast?_dropWhile_of_ne_nil _ _ hne
      have e2 : ((l.reverse.dropWhile Char.isWhitespace).reverse).getLast? =
          (l.reverse.dropWhile Char.isWhitespace).head? := by
        rw [← List.head?_reverse, List.reverse_reverse]
      rw [e1, e2] at hcc
      exact head?_dropWhile_not _ _ c hcc
    show ((((trimChars l).reverse.dropWhile Char.isWhitespace).reverse).dropWhile
      Char.isWhitespace) = trimChars l
    rw [hrev, List.reverse_reverse, hc]

lemma head?_take_pos (n : Nat) (l : List Char) (h : n ≠ 0) :
    (l.take n).head? = l.head? := by
  cases n with
  | zero => exact absurd rfl h
  | succ m => cases l <;> simp [List.take]

lemma sanitizeInput_of_ne_empty (s : String) (hs : s ≠ "") :
    sanitizeInput s = ⟨sanitizeChars s.toList⟩ := by
  rw [sanitizeInput, if_neg hs]

/-! C5: safety properties of the sanitizer. -/

/-- C5 counterexample: the claim says the sanitizer's output "carries no
leading or trailing whitespace", but on a 1001-character input the
truncation to 1000 characters happens after trimming and can cut right
after a space, leaving trailing whitespace. -/
theorem c5_counterexample :
    ((sanitizeInput c5bad).toList.getLast?.any fun c => c.isWhitespace) = true := by decide

/-- C5 (amended): for every string, the sanitized output contains no angle
bracket, has length at most 1000, and carries no leading whitespace
(trailing whitespace can survive truncation); the empty input yields the
empty string.  Sanitization is a total function by construction. -/
theorem c5_sanitize_safety (s : String) :
    ((sanitizeInput s).toList.all fun c => !(isAngle c)) = true ∧
    (sanitizeInput s).length ≤ 1000 ∧
    ((sanitizeInput s).toList.head?.all fun c => !c.isWhitespace) = true ∧
    sanitizeInput "" = "" := by
  by_cases hs : s = ""
  · subst hs
    exact ⟨rfl, by decide, rfl, rfl⟩
  · rw [sanitizeInput_of_ne_empty s hs]
    refine ⟨?_, ?_, ?_, rfl⟩
    · rw [List.all_eq_true]
      intro c hc
      have h1 : c ∈ trimChars (s.toList.filter fun c => !(isAngle c)) :=
        List.take_subset _ _ hc
      have h2 := trimChars_subset _ h1
      simpa using (List.mem_filter.mp h2).2
    · show (sanitizeChars s.toList).length ≤ 1000
      unfold sanitizeChars
      rw [List.length_take]
      exact min_le_left _ _
    · show ((sanitizeChars s.toList).head?.all fun c => !c.isWhitespace) = true
      unfold sanitizeChars
      rw [head?_take_pos _ _ (by decide)]
      cases hh : (trimChars (s.toList.filter fun c => !(isAngle c))).head? with
      | none => rfl
      | some c =>
        have := trimChars_head_not _ c hh
        simp [Option.all_some, this]

/-- C5 witness: the amended safety properties at a concrete input. -/
theorem c5_witness : (sanitizeInput " a<b> ").length ≤ 1000 :=
  (c5_sanitize_safety " a<b> ").2.1

/-! C6: idempotence of the sanitizer. -/

/-- C6 counterexample: sanitization is not idempotent; on the 1001-character
input the first pass leaves a trailing space (cut by the truncation) that
the second pass trims away. -/
theorem c6_counterexample :
    sanitizeInput (sanitizeInput c5bad) ≠ sanitizeInput c5bad := by decide

/-- C6 (amended): sanitization is idempotent on every input of length at
most 1000 (truncation never cuts such an input, so the failure mode of the
counterexample cannot occur). -/
theorem c6_sanitize_idem_short (s : String) (h : s.length ≤ 1000) :
    sanitizeInput (sanitizeInput s) = sanitizeInput s := by
  by_cases hs : s = ""
  · subst hs; rfl
  · by_cases hres : sanitizeInput s = ""
    · rw [hres]; rfl
    · have hlen : (trimChars (s.toList.filter fun c => !(isAngle c))).length ≤ 1000 := by
        have h1 := trimChars_length_le (s.toList.filter fun c => !(isAngle c))
        have h2 := List.length_filter_le (fun c => !(isAngle c)) s.toList
        have h3 : s.toList.length = s.length := rfl
        omega
      have htake : sanitizeChars s.toList = trimChars (s.toList.filter fun c => !(isAngle c)) := by
        unfold sanitizeChars
        rw [List.take_of_length_le hlen]
      have hfilter : (trimChars (s.toList.filter fun c => !(isAngle c))).filter
          (fun c => !(isAngle c)) = trimChars (s.toList.filter fun c => !(isAngle c)) := by
        rw [List.filter_eq_self]
        intro a ha
        exact (List.mem_filter.mp (trimChars_subset _ ha)).2
      rw [sanitizeInput_of_ne_empty _ hres, sanitizeInput_of_ne_empty s hs]
      show (⟨sanitizeChars (sanitizeChars s.toList)⟩ : String) = ⟨sanitizeChars s.toList⟩
      congr 1
      rw [htake]
      show (trimChars ((trimChars _).filter fun c => !(isAngle c))).take 1000 = _
      rw [hfilter, trimChars_idem, List.take_of_length_le hlen]

/-- C6 witness: idempotence at a concrete short input. -/
theorem c6_witness : sanitizeInput (sanitizeInput " a<b> ") = sanitizeInput " a<b> " :=
  c6_sanitize_idem_short " a<b> " (by decide)

/-! C7: the filter is the identity on queries with empty trimmed form. -/

/-- C7: for every record list and visible-field list, a query whose trimmed
form is empty (the falsy guard of `filterWorkCodes`) returns the input list
unchanged. -/
theorem c7_filter_empty_query (records : List WorkCode) (query : String)
    (fields : List String) (h : trimChars query.toList = []) :
    filterWorkCodes records query fields = records := by
  rw [filterWorkCodes, if_pos h]

/-- C7 witness: the identity behaviour at a whitespace-only query. -/
theorem c7_witness : filterWorkCodes c1records " " c1fields = c1records :=
  c7_filter_empty_query c1records " " c1fields (by decide)

/-! Helper lemmas about the filter branch. -/

lemma filterWorkCodes_pos (records : List WorkCode) (query : String)
    (fields : List String) (h : trimChars query.toList ≠ []) :
    filterWorkCodes records query fields =
      records.filter fun code => fields.any fun f =>
        fieldMatches code (sanitizeInput (toLowerStr query)) f := by
  rw [filterWorkCodes, if_neg h]

lemma fieldMatches_iff (code : WorkCode) (q : String) (f : String) :
    fieldMatches code q f = true ↔
      ∃ s, displayValue code f = some s ∧ q.toList <:+: (toLowerStr s).toList := by
  unfold fieldMatches
  cases hd : displayValue code f with
  | none => simp
  | some s =>
    simp only [strIncludes, decide_eq_true_eq]
    constructor
    · intro h
      exact ⟨s, rfl, h⟩
    · rintro ⟨s', hs', hinf⟩
      obtain rfl : s = s' := by simpa using hs'
      exact hinf

/-! C1: the "active" search scenario. -/

/-- C1 counterexample: the claim says only the record with id 1 is returned,
but the record with id 2 is also in the output, because its status label
"Inactive" lower-cased contains "active" as a substring. -/
theorem c1_counterexample :
    c1r2 ∈ filterWorkCodes c1records "active" c1fields ∧
    c1r2.work_code_id = some 2 := by
  constructor
  · decide
  · rfl

/-- C1 (amended): for the scenario records, query "active" and visible
fields short_work_code and status, the filter returns both records —
record 1 via its status label "Active" and record 2 via its status label
"Inactive", both of which contain "active" case-insensitively. -/
theorem c1_amended_scenario :
    filterWorkCodes c1records "active" c1fields = [c1r1, c1r2] := by decide

/-! C2: characterization of the filter on non-empty trimmed queries. -/

/-- C2: for a query with non-empty trimmed form, the filter output is an
order-preserving subsequence of the input; a record is kept exactly when
some listed field, stringified (status through its display label) and
lower-cased, contains the sanitized lower-cased query as a substring; and
a record all of whose listed fields are null/absent is never included. -/
theorem c2_filter_characterization (records : List WorkCode) (query : String)
    (fields : List String) (h : trimChars query.toList ≠ []) :
    (filterWorkCodes records query fields).Sublist records ∧
    (∀ code, code ∈ filterWorkCodes records query fields ↔
      code ∈ records ∧ ∃ f ∈ fields, ∃ s, displayValue code f = some s ∧
        (sanitizeInput (toLowerStr query)).toList <:+: (toLowerStr s).toList) ∧
    (∀ code, (∀ f ∈ fields, displayValue code f = none) →
      code ∉ filterWorkCodes records query fields) := by
  rw [filterWorkCodes_pos records query fields h]
  refine ⟨List.filter_sublist _, ?_, ?_⟩
  · intro code
    rw [List.mem_filter, List.any_eq_true]
    constructor
    · rintro ⟨hmem, f, hf, hm⟩
      obtain ⟨s, hds, hinf⟩ := (fieldMatches_iff _ _ _).mp hm
      exact ⟨hmem, f, hf, s, hds, hinf⟩
    · rintro ⟨hmem, f, hf, s, hds, hinf⟩
      exact ⟨hmem, f, hf, (fieldMatches_iff _ _ _).mpr ⟨s, hds, hinf⟩⟩
  · intro code hall hmem
    rw [List.mem_filter, List.any_eq_true] at hmem
    obtain ⟨-, f, hf, hm⟩ := hmem
    obtain ⟨s, hds, -⟩ := (fieldMatches_iff _ _ _).mp hm
    rw [hall f hf] at hds
    cases hds

/-- C2 witness: the subsequence property at the scenario inputs. -/
theorem c2_witness : (filterWorkCodes c1records "active" c1fields).Sublist c1records :=
  (c2_filter_characterization c1records "active" c1fields (by decide)).1

/-! C10: queries that sanitize to the empty string. -/

/-- C10: when the trimmed query is non-empty but its sanitized lower-cased
form is the empty string (for example a query of angle brackets only), the
filter keeps exactly the records with at least one listed field present,
because the empty string is a substring of every string. -/
theorem c10_empty_sanitized_query (records : List WorkCode) (query : String)
    (fields : List String) (h1 : trimChars query.toList ≠ [])
    (h2 : sanitizeInput (toLowerStr query) = "") :
    filterWorkCodes records query fields =
      records.filter fun code => fields.any fun f => (displayValue code f).isSome := by
  rw [filterWorkCodes_pos records query fields h1, h2]
  apply List.filter_congr
  intro code _
  have hpt : ∀ f, fieldMatches code "" f = (displayValue code f).isSome := by
    intro f
    unfold fieldMatches
    cases hd : displayValue code f with
    | none => rfl
    | some s =>
      show strIncludes (toLowerStr s) "" = true
      rw [strIncludes, decide_eq_true_eq]
      exact ⟨[], (toLowerStr s).toList, by simp⟩
  simp only [hpt]

/-- C10 witness: the angle-bracket query at the scenario records. -/
theorem c10_witness :
    filterWorkCodes c1records "<>" c1fields =
      c1records.filter fun code => c1fields.any fun f => (displayValue code f).isSome :=
  c10_empty_sanitized_query c1records "<>" c1fields (by decide) (by decide)

/-! C3: validation reports structured results. -/

/-- C3 counterexample: not every in-scope validation operation reports
failure as a structured value — `WorkCodeApiClient.validateWorkCodeData`
signals failure by throwing (`Except.error` in this embedding), here on the
initial form whose `short_work_code` is empty. -/
theorem c3_counterexample :
    validateWorkCodeData emptyForm = Except.error "Required fields are missing" := rfl

/-- C3 (amended): `validateRequiredFields` is total and reports failure as
the structured value `{isValid: false}` carrying the display label of the
first offending required-and-visible field; in the scenario (empty
`short_work_code`, default configuration) that label is "Short Work Code".
The API client's `validateWorkCodeData`, by contrast, throws. -/
theorem c3_validation_structured :
    validateRequiredFields emptyForm defaultFieldConfigs =
      ⟨false, some "Short Work Code"⟩ ∧
    (∀ (d : FormData) (cfgs : List (String × FieldConfig)),
      (validateRequiredFields d cfgs).isValid = false ↔
        ∃ p ∈ cfgs, p.2.required = true ∧ p.2.visible = true ∧ formFalsy d p.1 = true) ∧
    (∀ (d : FormData) (cfgs : List (String × FieldConfig)),
      (validateRequiredFields d cfgs).missingField =
        (((cfgs.filter fun p => p.2.required && p.2.visible).map Prod.fst).find?
            fun field => formFalsy d field).bind
          fun field => (lookupConfig field cfgs).map FieldConfig.label) := by
  refine ⟨by decide, ?_, ?_⟩
  · intro d cfgs
    unfold validateRequiredFields
    cases hfind : ((cfgs.filter fun p => p.2.required && p.2.visible).map Prod.fst).find?
        (fun field => formFalsy d field) with
    | some f =>
      simp only [hfind]
      constructor
      · intro _
        have hpred := List.find?_some hfind
        have hmem := List.mem_of_find?_eq_some hfind
        rw [List.mem_map] at hmem
        obtain ⟨p, hp, rfl⟩ := hmem
        rw [List.mem_filter] at hp
        obtain ⟨hreq, hvis⟩ : p.2.required = true ∧ p.2.visible = true := by simpa using hp.2
        exact ⟨p, hp.1, hreq, hvis, hpred⟩
      · intro _
        trivial
    | none =>
      simp only [hfind]
      constructor
      · intro hfalse
        simp at hfalse
      · rintro ⟨p, hp, hreq, hvis, hfal⟩
        have hall := List.find?_eq_none.mp hfind
        have hmem : p.1 ∈ (cfgs.filter fun q => q.2.required && q.2.visible).map Prod.fst := by
          rw [List.mem_map]
          refine ⟨p, ?_, rfl⟩
          rw [List.mem_filter]
          exact ⟨hp, by rw [hreq, hvis]; rfl⟩
        exact absurd hfal (hall p.1 hmem)
  · intro d cfgs
    unfold validateRequiredFields
    cases hfind : ((cfgs.filter fun p => p.2.required && p.2.visible).map Prod.fst).find?
        (fun field => formFalsy d field) with
    | some f => simp [hfind]
    | none => simp [hfind]

/-- C3 witness: the general invalidity characterization applied to the
scenario input. -/
theorem c3_witness : (validateRequiredFields emptyForm defaultFieldConfigs).isValid = false :=
  (c3_validation_structured.2.1 emptyForm defaultFieldConfigs).mpr
    ⟨("short_work_code", ⟨true, false, true, "Short Work Code",
        "Required, maximum 10 characters", true⟩),
      by decide, rfl, rfl, by decide⟩

/-! C9: only required-and-visible fields can fail validation. -/

lemma mem_keys_of_mem_requiredKeys (cfgs : List (String × FieldConfig)) (f : String)
    (h : f ∈ (cfgs.filter fun p => p.2.required && p.2.visible).map Prod.fst) :
    f ∈ cfgs.map Prod.fst := by
  rw [List.mem_map] at h ⊢
  obtain ⟨p, hp, rfl⟩ := h
  exact ⟨p, (List.mem_filter.mp hp).1, rfl⟩

lemma vrf_cons_skip (d : FormData) (p : String × FieldConfig)
    (rest : List (String × FieldConfig)) (hkey : p.1 ∉ rest.map Prod.fst)
    (hmiss : (p.2.required && p.2.visible && formFalsy d p.1) = false) :
    validateRequiredFields d (p :: rest) = validateRequiredFields d rest := by
  unfold validateRequiredFields
  by_cases hrv : (p.2.required && p.2.visible) = true
  · have hf : formFalsy d p.1 = false := by
      rw [hrv, Bool.true_and] at hmiss
      exact hmiss
    rw [List.filter_cons, if_pos hrv, List.map_cons]
    have hskip : List.find? (fun field => formFalsy d field)
        (p.1 :: (rest.filter fun q => q.2.required && q.2.visible).map Prod.fst) =
        List.find? (fun field => formFalsy d field)
          ((rest.filter fun q => q.2.required && q.2.visible).map Prod.fst) :=
      List.find?_cons_of_neg _ (by rw [hf]; exact Bool.false_ne_true)
    rw [hskip]
    cases hfind : ((rest.filter fun q => q.2.required && q.2.visible).map Prod.fst).find?
        (fun field => formFalsy d field) with
    | none => rfl
    | some f =>
      have hne : f ≠ p.1 := by
        intro he
        exact hkey (he ▸ mem_keys_of_mem_requiredKeys rest f
          (List.mem_of_find?_eq_some hfind))
      simp only [hfind]
      rw [lookupConfig, if_neg hne]
  · have hrv' : (p.2.required && p.2.visible) = false := by simpa using hrv
    rw [List.filter_cons, if_neg (by rw [hrv']; exact Bool.false_ne_true)]
    cases hfind : ((rest.filter fun q => q.2.required && q.2.visible).map Prod.fst).find?
        (fun field => formFalsy d field) with
    | none => rfl
    | some f =>
      have hne : f ≠ p.1 := by
        intro he
        exact hkey (he ▸ mem_keys_of_mem_requiredKeys rest f
          (List.mem_of_find?_eq_some hfind))
      simp only [hfind]
      rw [lookupConfig, if_neg hne]

/-- C9: over a configuration map with distinct keys, validation is fully
characterized by the first entry (in entry order) that is required, visible
and has a falsy form value: if none exists the result is valid, otherwise
the result is invalid and carries exactly that entry's label.  In
particular a field with `visible = false` is never reported, even when it
is required and empty. -/
theorem c9_first_required_visible (d : FormData) (cfgs : List (String × FieldConfig))
    (hnd : (cfgs.map Prod.fst).Nodup) :
    validateRequiredFields d cfgs =
      match cfgs.find? (fun p => p.2.required && p.2.visible && formFalsy d p.1) with
      | none => ⟨true, none⟩
      | some p => ⟨false, some p.2.label⟩ := by
  induction cfgs with
  | nil => rfl
  | cons p rest ih =>
    rw [List.map_cons, List.nodup_cons] at hnd
    obtain ⟨hkey, hnd'⟩ := hnd
    by_cases hhit : (p.2.required && p.2.visible && formFalsy d p.1) = true
    · have hrhs : List.find? (fun q => q.2.required && q.2.visible && formFalsy d q.1)
          (p :: rest) = some p := List.find?_cons_of_pos _ hhit
      rw [hrhs]
      obtain ⟨hrv, hf⟩ : (p.2.required && p.2.visible) = true ∧ formFalsy d p.1 = true := by
        simpa using hhit
      unfold validateRequiredFields
      rw [List.filter_cons, if_pos hrv, List.map_cons]
      have hfp : List.find? (fun field => formFalsy d field)
          (p.1 :: (rest.filter fun q => q.2.required && q.2.visible).map Prod.fst) =
          some p.1 := List.find?_cons_of_pos _ hf
      rw [hfp]
      simp [lookupConfig]
    · have hrhs : List.find? (fun q => q.2.required && q.2.visible && formFalsy d q.1)
          (p :: rest) = List.find? (fun q => q.2.required && q.2.visible && formFalsy d q.1)
          rest := List.find?_cons_of_neg _ hhit
      rw [hrhs, vrf_cons_skip d p rest hkey (by simpa using hhit)]
      exact ih hnd'

/-- C9 witness: a required field configured invisible, with an empty form
value, is skipped, so validation succeeds. -/
theorem c9_witness : validateRequiredFields c9Form c9Configs = ⟨true, none⟩ := by
  rw [c9_first_required_visible c9Form c9Configs (by decide)]
  decide

/-! C4: the well-formedness check. -/

/-- C4 counterexample: the claim allows only a literal space besides
alphanumerics, hyphen and underscore, but the source's regex class uses
whitespace rather than the space character, so a tab passes the check while
the claim says it must not. -/
theorem c4_counterexample :
    validateWorkCodeInput "short_work_code" "A\tB" 10 = true ∧
    ("A\tB".toList.all claimAllowedChar) = false := by
  exact ⟨by decide, by decide⟩

/-- C4 (amended): the check returns true exactly when the value is no longer
than the maximum length and every character is alphanumeric, whitespace
(space, tab, carriage return or line feed - the regex uses a whitespace
class, not just the space character), a hyphen, or an underscore; the
spec's three examples hold. -/
theorem c4_wellformed_characterization :
    (∀ (fld value : String) (maxLength : Nat),
      validateWorkCodeInput fld value maxLength = true ↔
        (value.length ≤ maxLength ∧
          ∀ c ∈ value.toList,
            (c.isAlphanum || c.isWhitespace || c == '-' || c == '_') = true)) ∧
    validateWorkCodeInput "short_work_code" "ABC-1_2" 10 = true ∧
    validateWorkCodeInput "short_work_code" "ABC<1>" 10 = false ∧
    validateWorkCodeInput "short_work_code" "toolong1234" 10 = false := by
  refine ⟨?_, by decide, by decide, by decide⟩
  intro fld value maxLength
  unfold validateWorkCodeInput
  by_cases hl : value.length > maxLength
  · rw [if_pos hl]
    constructor
    · intro h
      simp at h
    · rintro ⟨hle, -⟩
      exact absurd hle (by omega)
  · rw [if_neg hl, List.all_eq_true]
    have hle : value.length ≤ maxLength := by omega
    simp [hle]

/-- C4 witness: the characterization applied at a concrete accepted value. -/
theorem c4_witness : validateWorkCodeInput "prefix" "AB 1-x_2" 10 = true :=
  (c4_wellformed_characterization.1 "prefix" "AB 1-x_2" 10).mpr ⟨by decide, by decide⟩

/-! C8: the status check. -/

/-- C8: the status check returns true exactly on rationals that are
integers in the range 0..3; in particular it rejects 4, -1 and 3/2
(the spec's 1.5). -/
theorem c8_status_characterization :
    (∀ s : ℚ, validateStatus s = true ↔ ∃ n : ℤ, s = (n : ℚ) ∧ 0 ≤ n ∧ n ≤ 3) ∧
    validateStatus 4 = false ∧ validateStatus (-1) = false ∧
    validateStatus (3 / 2) = false := by
  have hiff : ∀ s : ℚ, validateStatus s = true ↔ ∃ n : ℤ, s = (n : ℚ) ∧ 0 ≤ n ∧ n ≤ 3 := by
    intro s
    unfold validateStatus
    simp only [Bool.and_eq_true, decide_eq_true_eq]
    constructor
    · rintro ⟨⟨hint, h0⟩, h3⟩
      have hden : s.den = 1 := by simpa [Rat.isInt] using hint
      have hnum : (s.num : ℚ) = s := (Rat.den_eq_one_iff s).mp hden
      refine ⟨s.num, hnum.symm, Rat.num_nonneg.mpr h0, ?_⟩
      have h3' : (s.num : ℚ) ≤ 3 := by
        rw [hnum]
        exact h3
      exact_mod_cast h3'
    · rintro ⟨n, rfl, h0, h3⟩
      refine ⟨⟨?_, ?_⟩, ?_⟩
      · simp [Rat.isInt]
      · exact_mod_cast h0
      · exact_mod_cast h3
  have h15 : validateStatus (3 / 2) = false := by
    cases hval : validateStatus (3 / 2) with
    | false => rfl
    | true =>
      obtain ⟨n, hn, -, -⟩ := (hiff (3 / 2)).mp hval
      have h2 : (3 : ℚ) = n * 2 := by
        field_simp at hn
        linarith
      have h3 : (3 : ℤ) = n * 2 := by exact_mod_cast h2
      omega
  exact ⟨hiff, by decide, by decide, h15⟩

/-- C8 witness: the characterization applied at the status value 2. -/
theorem c8_witness : validateStatus 2 = true :=
  (c8_status_characterization.1 2).mpr ⟨2, by norm_num⟩

end OSWFM
